import Mathlib

/-!
Verification of the image-utility suite (format conversion, resizing,
compression, grid-collage composition) against its specification.

The development shallowly embeds the transformation logic of the
repository's pages:

* `cropAndResizeImage` (collage page) — the Geometric Transformer;
* `resizeDims` / `prepareResizeArgs` (resize page) — the Proportional
  Resizer and the batch path that prepares its arguments;
* `compressImage` (compress page) — the Quality Re-encoder;
* `generateCollage` (collage page) — the Collage Composer;
* `handleResizeAll` and a small operation scheduler — the Batch
  Orchestrator and the per-item status lifecycle;
* `POSTfull` / `POSTshort` — the two conversion route handlers.

JavaScript numbers are modelled as exact rationals (`ℚ`), `Math.round`
as `jsRound` (round half towards positive infinity, which is what
`Math.round` does), and optional `number` parameters as `Option ℕ`
together with JavaScript truthiness (`0` and `undefined` are falsy).
Canvas 2D contexts and `canvas.toBlob` are assumed to be available and
to succeed; the source treats a missing context as a fatal precondition
failure.
-/

/-- A decoded image: intrinsic pixel dimensions, as reported by the
Image Loader (`img.width` / `img.height`). -/
structure Img where
  width : ℕ
  height : ℕ
deriving DecidableEq, Repr

/-- JavaScript `Math.round`: round half towards positive infinity. -/
def jsRound (q : ℚ) : ℤ := ⌊q + 1 / 2⌋

/-- Rounding a natural number with `Math.round` is the identity. -/
theorem jsRound_natCast (n : ℕ) : jsRound (n : ℚ) = n := by
  unfold jsRound
  rw [Int.floor_eq_iff]
  constructor
  · push_cast; linarith
  · push_cast; linarith

/-- Rounding with `Math.round` is monotone below a natural-number bound. -/
theorem jsRound_le_natCast {q : ℚ} {n : ℕ} (h : q ≤ (n : ℚ)) :
    jsRound q ≤ (n : ℤ) := by
  have : jsRound q ≤ jsRound (n : ℚ) := by
    unfold jsRound
    exact Int.floor_le_floor (by linarith)
  simpa [jsRound_natCast] using this

/-! ## Geometric Transformer (collage page, `cropAndResizeImage`) -/

/-- The result of `cropAndResizeImage`: the output canvas dimensions and
the source rectangle passed to `drawImage` (the region of the source
that is scaled to fill the whole canvas). -/
structure CropResult where
  canvasWidth : ℕ
  canvasHeight : ℕ
  sourceX : ℚ
  sourceY : ℚ
  sourceW : ℚ
  sourceH : ℚ
deriving DecidableEq, Repr

/-- The function `cropAndResizeImage(img, targetWidth, targetHeight)` of the collage
page: the canvas is created at exactly the target size; the source crop
rectangle is the centre crop matching the target aspect ratio. -/
def cropAndResizeImage (img : Img) (targetWidth targetHeight : ℕ) : CropResult :=
  -- imgAspect = img.width / img.height, targetAspect = targetWidth / targetHeight
  if (img.width : ℚ) / (img.height : ℚ) > (targetWidth : ℚ) / (targetHeight : ℚ) then
    { canvasWidth := targetWidth
      canvasHeight := targetHeight
      sourceX :=
        ((img.width : ℚ) - (img.height : ℚ) * ((targetWidth : ℚ) / (targetHeight : ℚ))) / 2
      sourceY := 0
      sourceW := (img.height : ℚ) * ((targetWidth : ℚ) / (targetHeight : ℚ))
      sourceH := (img.height : ℚ) }
  else
    { canvasWidth := targetWidth
      canvasHeight := targetHeight
      sourceX := 0
      sourceY :=
        ((img.height : ℚ) - (img.width : ℚ) / ((targetWidth : ℚ) / (targetHeight : ℚ))) / 2
      sourceW := (img.width : ℚ)
      sourceH := (img.width : ℚ) / ((targetWidth : ℚ) / (targetHeight : ℚ)) }

/-- C1: the Geometric Transformer always outputs a buffer of exactly
`targetWidth × targetHeight`; when the source aspect ratio exceeds the
target aspect ratio the crop keeps the full source height and has width
`sourceHeight × targetAspect`, centred so the left and right margins are
equal; otherwise it keeps the full source width and has height
`sourceWidth / targetAspect`, centred so the top and bottom margins are
equal. -/
theorem cropAndResizeImage_spec (img : Img) (tw th : ℕ)
    (hw : 0 < img.width) (hh : 0 < img.height) (htw : 0 < tw) (hth : 0 < th) :
    (cropAndResizeImage img tw th).canvasWidth = tw ∧
    (cropAndResizeImage img tw th).canvasHeight = th ∧
    ((img.width : ℚ) / img.height > (tw : ℚ) / th →
      (cropAndResizeImage img tw th).sourceW = (img.height : ℚ) * ((tw : ℚ) / th) ∧
      (cropAndResizeImage img tw th).sourceH = (img.height : ℚ) ∧
      (cropAndResizeImage img tw th).sourceY = 0 ∧
      (cropAndResizeImage img tw th).sourceX =
        (img.width : ℚ) -
          ((cropAndResizeImage img tw th).sourceX + (cropAndResizeImage img tw th).sourceW)) ∧
    (¬ ((img.width : ℚ) / img.height > (tw : ℚ) / th) →
      (cropAndResizeImage img tw th).sourceH = (img.width : ℚ) / ((tw : ℚ) / th) ∧
      (cropAndResizeImage img tw th).sourceW = (img.width : ℚ) ∧
      (cropAndResizeImage img tw th).sourceX = 0 ∧
      (cropAndResizeImage img tw th).sourceY =
        (img.height : ℚ) -
          ((cropAndResizeImage img tw th).sourceY + (cropAndResizeImage img tw th).sourceH)) := by
  unfold cropAndResizeImage
  by_cases hcase : (img.width : ℚ) / (img.height : ℚ) > (tw : ℚ) / (th : ℚ)
  · rw [if_pos hcase]
    exact ⟨rfl, rfl, fun _ => ⟨rfl, rfl, rfl, by ring⟩, fun hc => absurd hcase hc⟩
  · rw [if_neg hcase]
    exact ⟨rfl, rfl, fun hc => absurd hc hcase, fun _ => ⟨rfl, rfl, rfl, by ring⟩⟩

/-- C1 witness: a 4000×2000 source fit into a 400×800 target keeps the
output at 400×800 and crops a 1000×2000 centre region (margins 1500
either side). -/
theorem cropAndResizeImage_spec_witness :
    (cropAndResizeImage ⟨4000, 2000⟩ 400 800).canvasWidth = 400 ∧
    (cropAndResizeImage ⟨4000, 2000⟩ 400 800).canvasHeight = 800 ∧
    (cropAndResizeImage ⟨4000, 2000⟩ 400 800).sourceW = 1000 ∧
    (cropAndResizeImage ⟨4000, 2000⟩ 400 800).sourceH = 2000 ∧
    (cropAndResizeImage ⟨4000, 2000⟩ 400 800).sourceX = 1500 := by
  have h := cropAndResizeImage_spec ⟨4000, 2000⟩ 400 800
    (by norm_num) (by norm_num) (by norm_num) (by norm_num)
  have hgt : ((4000 : ℚ)) / 2000 > (400 : ℚ) / 800 := by norm_num
  have hw : (cropAndResizeImage ⟨4000, 2000⟩ 400 800).sourceW = 1000 := by
    have := (h.2.2.1 hgt).1
    norm_num at this
    exact this
  refine ⟨h.1, h.2.1, hw, (h.2.2.1 hgt).2.1, ?_⟩
  · have hx := (h.2.2.1 hgt).2.2.2
    rw [hw] at hx
    norm_num at hx
    linarith

/-! ## Proportional Resizer (resize page, `resizeImage`) -/

/-- JavaScript truthiness of an optional number (`undefined` and `0` are
falsy). -/
def truthy : Option ℕ → Bool
  | none => false
  | some n => n != 0

/-- JavaScript `a || b` on an optional number: the value when truthy,
else the default. -/
def jsOr (o : Option ℕ) (d : ℕ) : ℕ :=
  match o with
  | none => d
  | some n => if n = 0 then d else n

/-- The output dimension computation of `resizeImage(file, width?,
height?, maintainRatio)` on the resize page: the `(finalWidth,
finalHeight)` pair assigned to the canvas.  `img` is the decoded source
(`img.width`/`img.height`); `width`/`height` are the optional requested
dimensions.  Inside a truthy branch the parameter's value is written
`jsOr width img.width`, which equals the parameter itself there. -/
def resizeDims (img : Img) (width height : Option ℕ) (maintainRatio : Bool) :
    ℤ × ℤ :=
  -- finalWidth = width || img.width ; finalHeight = height || img.height
  if maintainRatio && (truthy width || truthy height) then
    -- aspectRatio = img.width / img.height
    if truthy width && !truthy height then
      ((jsOr width img.width : ℤ),
        jsRound ((jsOr width img.width : ℚ) / ((img.width : ℚ) / (img.height : ℚ))))
    else if truthy height && !truthy width then
      (jsRound ((jsOr height img.height : ℚ) * ((img.width : ℚ) / (img.height : ℚ))),
        (jsOr height img.height : ℤ))
    else if truthy width && truthy height then
      -- ratio = min (width / img.width) (height / img.height)
      (jsRound ((img.width : ℚ) *
          min ((jsOr width img.width : ℚ) / (img.width : ℚ))
            ((jsOr height img.height : ℚ) / (img.height : ℚ))),
        jsRound ((img.height : ℚ) *
          min ((jsOr width img.width : ℚ) / (img.width : ℚ))
            ((jsOr height img.height : ℚ) / (img.height : ℚ))))
    else ((jsOr width img.width : ℤ), (jsOr height img.height : ℤ))
  else ((jsOr width img.width : ℤ), (jsOr height img.height : ℤ))

/-- Unfolding lemma: with both dimensions truthy and the aspect flag on,
`resizeImage` takes the `width && height` branch. -/
theorem resizeDims_both_eq (img : Img) (w h : ℕ) (hwne : w ≠ 0) (hhne : h ≠ 0) :
    resizeDims img (some w) (some h) true =
      (jsRound ((img.width : ℚ) *
          min ((w : ℚ) / (img.width : ℚ)) ((h : ℚ) / (img.height : ℚ))),
        jsRound ((img.height : ℚ) *
          min ((w : ℚ) / (img.width : ℚ)) ((h : ℚ) / (img.height : ℚ)))) := by
  simp [resizeDims, truthy, jsOr, hwne, hhne]

/-- Exact-axis lemma: the axis attaining the minimum ratio rounds back
to the requested value. -/
theorem resizeDims_both_exact_axis (img : Img) (w h : ℕ)
    (hsw : 0 < img.width) (hsh : 0 < img.height) (hw : 0 < w) (hh : 0 < h) :
    (resizeDims img (some w) (some h) true).1 = (w : ℤ) ∨
      (resizeDims img (some w) (some h) true).2 = (h : ℤ) := by
  have hwne : w ≠ 0 := Nat.pos_iff_ne_zero.mp hw
  have hhne : h ≠ 0 := Nat.pos_iff_ne_zero.mp hh
  have heq := resizeDims_both_eq img w h hwne hhne
  rcases le_total ((w : ℚ) / img.width) ((h : ℚ) / img.height) with hmin | hmin
  · left
    rw [heq]
    have : (img.width : ℚ) *
        min ((w : ℚ) / img.width) ((h : ℚ) / img.height) = (w : ℚ) := by
      rw [min_eq_left hmin]
      field_simp
    rw [this, jsRound_natCast]
  · right
    rw [heq]
    have : (img.height : ℚ) *
        min ((w : ℚ) / img.width) ((h : ℚ) / img.height) = (h : ℚ) := by
      rw [min_eq_right hmin]
      field_simp
    rw [this, jsRound_natCast]

/-- C2: with both dimensions supplied and `preserveAspect = true`, both
source dimensions are scaled by `min(width/sourceWidth,
height/sourceHeight)` and rounded; the output never exceeds the
requested box and at least one axis equals the requested value. -/
theorem resizeDims_both_contain (img : Img) (w h : ℕ)
    (hsw : 0 < img.width) (hsh : 0 < img.height) (hw : 0 < w) (hh : 0 < h) :
    resizeDims img (some w) (some h) true =
      (jsRound ((img.width : ℚ) *
          min ((w : ℚ) / (img.width : ℚ)) ((h : ℚ) / (img.height : ℚ))),
        jsRound ((img.height : ℚ) *
          min ((w : ℚ) / (img.width : ℚ)) ((h : ℚ) / (img.height : ℚ)))) ∧
    (resizeDims img (some w) (some h) true).1 ≤ (w : ℤ) ∧
    (resizeDims img (some w) (some h) true).2 ≤ (h : ℤ) ∧
    ((resizeDims img (some w) (some h) true).1 = (w : ℤ) ∨
      (resizeDims img (some w) (some h) true).2 = (h : ℤ)) := by
  have hwne : w ≠ 0 := Nat.pos_iff_ne_zero.mp hw
  have hhne : h ≠ 0 := Nat.pos_iff_ne_zero.mp hh
  have heq := resizeDims_both_eq img w h hwne hhne
  have hswQ : (0 : ℚ) < (img.width : ℚ) := by exact_mod_cast hsw
  have hshQ : (0 : ℚ) < (img.height : ℚ) := by exact_mod_cast hsh
  refine ⟨heq, ?_, ?_, ?_⟩
  · rw [heq]
    apply jsRound_le_natCast
    calc (img.width : ℚ) * min ((w : ℚ) / img.width) ((h : ℚ) / img.height)
        ≤ (img.width : ℚ) * ((w : ℚ) / img.width) := by
          apply mul_le_mul_of_nonneg_left (min_le_left _ _) (le_of_lt hswQ)
      _ = (w : ℚ) := by field_simp
  · rw [heq]
    apply jsRound_le_natCast
    calc (img.height : ℚ) * min ((w : ℚ) / img.width) ((h : ℚ) / img.height)
        ≤ (img.height : ℚ) * ((h : ℚ) / img.height) := by
          apply mul_le_mul_of_nonneg_left (min_le_right _ _) (le_of_lt hshQ)
      _ = (h : ℚ) := by field_simp
  · exact resizeDims_both_exact_axis img w h hsw hsh hw hh

/-- C2 witness: a 400×300 source fit into a 200×200 box gives 200×150 —
inside the box, width axis exact. -/
theorem resizeDims_both_contain_witness :
    resizeDims ⟨400, 300⟩ (some 200) (some 200) true = (200, 150) ∧
    (resizeDims ⟨400, 300⟩ (some 200) (some 200) true).1 ≤ 200 ∧
    (resizeDims ⟨400, 300⟩ (some 200) (some 200) true).2 ≤ 200 := by
  have h := resizeDims_both_contain ⟨400, 300⟩ 200 200
    (by norm_num) (by norm_num) (by norm_num) (by norm_num)
  refine ⟨?_, h.2.1, h.2.2.1⟩
  rw [h.1]
  norm_num [jsRound]

/-- C9: with both target dimensions absent the resizer is the identity
on dimensions, for either value of the aspect flag. -/
theorem resizeDims_none_none_identity (img : Img) (maintainRatio : Bool) :
    resizeDims img none none maintainRatio = ((img.width : ℤ), (img.height : ℤ)) := by
  cases maintainRatio <;> simp [resizeDims, truthy, jsOr]

/-- The argument preparation of `resizeSingleImage` on the resize page:
a target field that is a positive number is used, otherwise the item's
original dimension; if either prepared value is still falsy, both fall
back to `original || 1`. -/
def prepareResizeArgs (targetWidth targetHeight originalWidth originalHeight :
    Option ℕ) : ℕ × ℕ :=
  let width : Option ℕ :=
    match targetWidth with
    | some w => if 0 < w then some w else originalWidth
    | none => originalWidth
  let height : Option ℕ :=
    match targetHeight with
    | some h => if 0 < h then some h else originalHeight
    | none => originalHeight
  if !truthy width || !truthy height then
    (jsOr originalWidth 1, jsOr originalHeight 1)
  else (width.getD 0, height.getD 0)

/-- The dimensions produced by one run of `resizeSingleImage` on the
resize page: it prepares width/height from the form fields and the
item's recorded original dimensions, then always calls `resizeImage`
with BOTH arguments supplied.  The item's recorded original dimensions
equal the decoded image's intrinsic dimensions (both come from loading
the same file). -/
def resizeSingleImageDims (targetWidth targetHeight : Option ℕ) (img : Img)
    (maintainRatio : Bool) : ℤ × ℤ :=
  let wh := prepareResizeArgs targetWidth targetHeight (some img.width) (some img.height)
  resizeDims img (some wh.1) (some wh.2) maintainRatio

/-- C3 counterexample: a 100×50 source with only width 200 requested
(an upscale), run through the batch path, keeps the source size 100×50
instead of the claimed 200 on the supplied axis.  The batch path fills
the absent height with the original height 50, so `resizeImage` takes
the both-dimensions branch whose ratio `min(200/100, 50/50)` is clamped
to 1. -/
theorem resizeSingleImageDims_upscale_counterexample :
    resizeSingleImageDims (some 200) none ⟨100, 50⟩ true = (100, 50) ∧
    (resizeSingleImageDims (some 200) none ⟨100, 50⟩ true).1 ≠ 200 := by
  have hargs : prepareResizeArgs (some 200) none (some (100 : ℕ)) (some (50 : ℕ)) =
      (200, 50) := by decide
  have heq : resizeSingleImageDims (some 200) none ⟨100, 50⟩ true =
      resizeDims ⟨100, 50⟩ (some 200) (some 50) true := by
    unfold resizeSingleImageDims
    rw [hargs]
  rw [heq, resizeDims_both_eq ⟨100, 50⟩ 200 50 (by norm_num) (by norm_num)]
  norm_num [jsRound, min_def]

/-- C3 amended: when `resizeImage` itself is invoked with exactly one
dimension and `preserveAspect = true`, the supplied axis equals the
requested value and the other axis is `round(width / sourceAspect)`
(resp. `round(height * sourceAspect)`).  The batch path
(`resizeSingleImage`) always supplies both dimensions, defaulting the
missing one to the source dimension, so there the same output only
arises when the supplied value does not exceed the source's
corresponding dimension (a downscale); on an upscale the batch output
is the source size. -/
theorem resizeDims_one_dimension (img : Img) (w h : ℕ)
    (hsw : 0 < img.width) (hsh : 0 < img.height) (hw : 0 < w) (hh : 0 < h) :
    resizeDims img (some w) none true =
      ((w : ℤ), jsRound ((w : ℚ) / ((img.width : ℚ) / (img.height : ℚ)))) ∧
    resizeDims img none (some h) true =
      (jsRound ((h : ℚ) * ((img.width : ℚ) / (img.height : ℚ))), (h : ℤ)) ∧
    (w ≤ img.width →
      resizeSingleImageDims (some w) none img true =
        ((w : ℤ), jsRound ((w : ℚ) / ((img.width : ℚ) / (img.height : ℚ))))) ∧
    (img.width < w →
      resizeSingleImageDims (some w) none img true =
        ((img.width : ℤ), (img.height : ℤ))) ∧
    (h ≤ img.height →
      resizeSingleImageDims none (some h) img true =
        (jsRound ((h : ℚ) * ((img.width : ℚ) / (img.height : ℚ))), (h : ℤ))) ∧
    (img.height < h →
      resizeSingleImageDims none (some h) img true =
        ((img.width : ℤ), (img.height : ℤ))) := by
  have hwne : w ≠ 0 := Nat.pos_iff_ne_zero.mp hw
  have hhne : h ≠ 0 := Nat.pos_iff_ne_zero.mp hh
  have hswne : img.width ≠ 0 := Nat.pos_iff_ne_zero.mp hsw
  have hshne : img.height ≠ 0 := Nat.pos_iff_ne_zero.mp hsh
  have hswQ : (0 : ℚ) < (img.width : ℚ) := by exact_mod_cast hsw
  have hshQ : (0 : ℚ) < (img.height : ℚ) := by exact_mod_cast hsh
  have hbatch : resizeSingleImageDims (some w) none img true =
      resizeDims img (some w) (some img.height) true := by
    simp [resizeSingleImageDims, prepareResizeArgs, truthy, jsOr, hw, hwne, hswne, hshne]
  have hbatch2 : resizeSingleImageDims none (some h) img true =
      resizeDims img (some img.width) (some h) true := by
    simp [resizeSingleImageDims, prepareResizeArgs, truthy, jsOr, hh, hhne, hswne, hshne]
  refine ⟨?_, ?_, ?_, ?_, ?_, ?_⟩
  · simp [resizeDims, truthy, jsOr, hwne]
  · simp [resizeDims, truthy, jsOr, hhne]
  · intro hle
    rw [hbatch]
    rw [resizeDims_both_eq img w img.height (Nat.pos_iff_ne_zero.mp hw)
      (Nat.pos_iff_ne_zero.mp hsh)]
    have hmin : min ((w : ℚ) / (img.width : ℚ)) ((img.height : ℚ) / (img.height : ℚ)) =
        (w : ℚ) / (img.width : ℚ) := by
      apply min_eq_left
      rw [div_self (ne_of_gt hshQ)]
      rw [div_le_one hswQ]
      exact_mod_cast hle
    rw [hmin]
    have hfw : (img.width : ℚ) * ((w : ℚ) / (img.width : ℚ)) = (w : ℚ) := by field_simp
    have hfh : (img.height : ℚ) * ((w : ℚ) / (img.width : ℚ)) =
        (w : ℚ) / ((img.width : ℚ) / (img.height : ℚ)) := by field_simp; ring
    rw [hfw, hfh, jsRound_natCast]
  · intro hlt
    rw [hbatch]
    rw [resizeDims_both_eq img w img.height (Nat.pos_iff_ne_zero.mp hw)
      (Nat.pos_iff_ne_zero.mp hsh)]
    have hmin : min ((w : ℚ) / (img.width : ℚ)) ((img.height : ℚ) / (img.height : ℚ)) =
        (img.height : ℚ) / (img.height : ℚ) := by
      apply min_eq_right
      rw [div_self (ne_of_gt hshQ)]
      rw [le_div_iff₀ hswQ, one_mul]
      exact_mod_cast le_of_lt hlt
    rw [hmin, div_self (ne_of_gt hshQ), mul_one, mul_one,
      jsRound_natCast, jsRound_natCast]
  · intro hle
    rw [hbatch2]
    rw [resizeDims_both_eq img img.width h hswne hhne]
    have hmin : min ((img.width : ℚ) / (img.width : ℚ)) ((h : ℚ) / (img.height : ℚ)) =
        (h : ℚ) / (img.height : ℚ) := by
      apply min_eq_right
      rw [div_self (ne_of_gt hswQ)]
      rw [div_le_one hshQ]
      exact_mod_cast hle
    rw [hmin]
    have hfw : (img.width : ℚ) * ((h : ℚ) / (img.height : ℚ)) =
        (h : ℚ) * ((img.width : ℚ) / (img.height : ℚ)) := by ring
    have hfh : (img.height : ℚ) * ((h : ℚ) / (img.height : ℚ)) = (h : ℚ) := by field_simp
    rw [hfw, hfh, jsRound_natCast]
  · intro hlt
    rw [hbatch2]
    rw [resizeDims_both_eq img img.width h hswne hhne]
    have hmin : min ((img.width : ℚ) / (img.width : ℚ)) ((h : ℚ) / (img.height : ℚ)) =
        (img.width : ℚ) / (img.width : ℚ) := by
      apply min_eq_left
      rw [div_self (ne_of_gt hswQ)]
      rw [le_div_iff₀ hshQ, one_mul]
      exact_mod_cast le_of_lt hlt
    rw [hmin, div_self (ne_of_gt hswQ), mul_one, mul_one,
      jsRound_natCast, jsRound_natCast]

/-- C3 witness: a 400×200 source with only width 100 requested gives
100×50 on the direct path and on the batch (downscale) path, and with
only height 100 requested gives 200×100 on the batch (downscale) path;
the direct path upsizes 400×200 to 800×400 from a single width 800,
while the batch path keeps 400×200 from a single height 800 (an
upscale). -/
theorem resizeDims_one_dimension_witness :
    resizeDims ⟨400, 200⟩ (some 100) none true = (100, 50) ∧
    resizeSingleImageDims (some 100) none ⟨400, 200⟩ true = (100, 50) ∧
    resizeDims ⟨400, 200⟩ (some 800) none true = (800, 400) ∧
    resizeSingleImageDims none (some 100) ⟨400, 200⟩ true = (200, 100) ∧
    resizeSingleImageDims none (some 800) ⟨400, 200⟩ true = (400, 200) := by
  have h1 := resizeDims_one_dimension ⟨400, 200⟩ 100 100
    (by norm_num) (by norm_num) (by norm_num) (by norm_num)
  have h2 := resizeDims_one_dimension ⟨400, 200⟩ 800 800
    (by norm_num) (by norm_num) (by norm_num) (by norm_num)
  refine ⟨?_, ?_, ?_, ?_, ?_⟩
  · rw [h1.1]; norm_num [jsRound]
  · rw [h1.2.2.1 (by norm_num)]; norm_num [jsRound]
  · rw [h2.1]; norm_num [jsRound]
  · rw [h1.2.2.2.2.1 (by norm_num)]; norm_num [jsRound]
  · rw [h2.2.2.2.2.2 (by norm_num)]; norm_num

/-! ## Quality Re-encoder (compress page, `compressImage`) -/

/-- JavaScript `String.prototype.toLowerCase` (ASCII range, which is
all that MIME type strings use), written as a character-list map so the
kernel can evaluate it. -/
def jsToLower (s : String) : String :=
  String.mk (s.data.map Char.toLower)

/-- JavaScript `String.prototype.includes`: `sub` occurs contiguously in
`s`. -/
def stringIncludes (s sub : String) : Bool :=
  (List.range (s.toList.length + 1)).any fun i =>
    List.isPrefixOf sub.toList (s.toList.drop i)

/-- The alpha-channel scan of `compressImage`: `imageData.data.some((_,
i) => i % 4 === 3 && imageData.data[i] < 255)` over the flattened RGBA
byte stream. -/
def hasTransparency (data : List ℕ) : Bool :=
  (List.range data.length).any fun i =>
    decide (i % 4 = 3) && decide (data.getD i 0 < 255)

/-- The output policy of `compressImage(file, qualityPercent)` on the
compress page: the `(outputMimeType, outputQuality)` pair passed to
`canvas.toBlob`.  `fileType` is `file.type`; `data` is the RGBA pixel
read-back used for the PNG transparency check (the temporary canvas
context is assumed available, as the source silently falls through to
JPEG only when it is not). -/
def compressImage (fileType : String) (data : List ℕ) (qualityPercent : ℚ) :
    String × ℚ :=
  -- originalType = file.type.toLowerCase()
  if jsToLower fileType = "image/png" then
    if hasTransparency data then
      ("image/png", max (1 / 10) (qualityPercent * (9 / 10)))
    else ("image/jpeg", qualityPercent)
  else if jsToLower fileType = "image/webp" then ("image/webp", qualityPercent)
  else if stringIncludes (jsToLower fileType) "jpeg" || stringIncludes (jsToLower fileType) "jpg" then
    ("image/jpeg", qualityPercent)
  else ("image/jpeg", qualityPercent)

/-- C10: for a PNG source with a non-opaque pixel, the effective quality
is `max(0.1, 0.9 × q)`: clamped from below at 0.1, never under that
floor. -/
theorem compressImage_transparent_png_floor (data : List ℕ) (q : ℚ)
    (hq0 : 0 < q) (hq1 : q ≤ 1) (ht : hasTransparency data = true) :
    compressImage "image/png" data q = ("image/png", max (1 / 10) (q * (9 / 10))) ∧
    (1 / 10 : ℚ) ≤ (compressImage "image/png" data q).2 := by
  have htl : jsToLower "image/png" = "image/png" := by decide
  have heq : compressImage "image/png" data q =
      ("image/png", max (1 / 10) (q * (9 / 10))) := by
    simp [compressImage, htl, ht]
  exact ⟨heq, by rw [heq]; exact le_max_left _ _⟩

/-- C10 witness: at quality 0.05 on a transparent PNG the damped value
0.045 is clamped up to the floor 0.1. -/
theorem compressImage_transparent_png_floor_witness :
    compressImage "image/png" [0, 0, 0, 100] (1 / 20) = ("image/png", 1 / 10) := by
  have h := compressImage_transparent_png_floor [0, 0, 0, 100] (1 / 20)
    (by norm_num) (by norm_num) (by decide)
  rw [h.1]
  norm_num

/-- C4 counterexample: at quality 0.1 (the compress page slider's
minimum) on a PNG with a pixel of alpha 100, the output stays PNG but
the effective quality is the floor 0.1, not the claimed 0.9 × 0.1 =
0.09. -/
theorem compressImage_damping_counterexample :
    compressImage "image/png" [0, 0, 0, 100] (1 / 10) = ("image/png", 1 / 10) ∧
    (compressImage "image/png" [0, 0, 0, 100] (1 / 10)).2 ≠ (1 / 10) * (9 / 10) := by
  have ht : hasTransparency [0, 0, 0, 100] = true := by decide
  have htl : jsToLower "image/png" = "image/png" := by decide
  have heq : compressImage "image/png" [0, 0, 0, 100] (1 / 10) =
      ("image/png", max (1 / 10) ((1 / 10) * (9 / 10))) := by
    simp [compressImage, htl, ht]
  have hmax : max ((1 : ℚ) / 10) ((1 / 10) * (9 / 10)) = 1 / 10 := by
    rw [max_eq_left]
    norm_num
  refine ⟨by rw [heq, hmax], by rw [heq, hmax]; norm_num⟩

/-- C4 amended: the encoding policy by source type — WEBP stays WEBP at
the given quality; any non-PNG, non-WEBP source (JPEG included) becomes
JPEG at the given quality; an all-opaque PNG becomes JPEG at the given
quality; a PNG with any pixel of alpha < 255 stays PNG at effective
quality `max(0.1, 0.9 × q)` (the 0.9× damping, clamped below at 0.1 —
e.g. quality 0.8 yields 0.72, which is above the floor). -/
theorem compressImage_policy (t : String) (data : List ℕ) (q : ℚ) :
    compressImage "image/webp" data q = ("image/webp", q) ∧
    (jsToLower t ≠ "image/png" → jsToLower t ≠ "image/webp" →
      compressImage t data q = ("image/jpeg", q)) ∧
    (hasTransparency data = false →
      compressImage "image/png" data q = ("image/jpeg", q)) ∧
    (hasTransparency data = true →
      compressImage "image/png" data q = ("image/png", max (1 / 10) (q * (9 / 10)))) := by
  have htlp : jsToLower "image/png" = "image/png" := by decide
  have htlw : jsToLower "image/webp" = "image/webp" := by decide
  refine ⟨?_, ?_, ?_, ?_⟩
  · simp [compressImage, htlw]
  · intro h1 h2
    unfold compressImage
    rw [if_neg h1, if_neg h2, ite_self]
  · intro hop
    simp [compressImage, htlp, hop]
  · intro ht
    simp [compressImage, htlp, ht]

/-- C4 witness: at quality 0.8 a JPEG source stays JPEG at 0.8, an
opaque PNG becomes JPEG at 0.8, and a PNG with a pixel of alpha 100
stays PNG at 0.72. -/
theorem compressImage_policy_witness :
    compressImage "image/jpeg" [0, 0, 0, 255] (4 / 5) = ("image/jpeg", 4 / 5) ∧
    compressImage "image/png" [0, 0, 0, 255] (4 / 5) = ("image/jpeg", 4 / 5) ∧
    compressImage "image/png" [0, 0, 0, 100] (4 / 5) = ("image/png", 72 / 100) := by
  refine ⟨?_, ?_, ?_⟩
  · exact (compressImage_policy "image/jpeg" [0, 0, 0, 255] (4 / 5)).2.1
      (by decide) (by decide)
  · exact (compressImage_policy "image/jpeg" [0, 0, 0, 255] (4 / 5)).2.2.1 (by decide)
  · have h := (compressImage_policy "image/jpeg" [0, 0, 0, 100] (4 / 5)).2.2.2 (by decide)
    rw [h]
    norm_num [max_eq_right]

/-! ## Collage Composer (collage page, `generateCollage`) -/

/-- One generated collage: its 1-based sequence index, its canvas size,
and its grid cells in row-major order — `some img` where an image was
placed via the Geometric Transformer, `none` where the cell stays
background-coloured. -/
structure Collage where
  index : ℕ
  canvasWidth : ℚ
  canvasHeight : ℚ
  cells : List (Option Img)
deriving DecidableEq, Repr

/-- The function `generateCollage` of the collage page, applied to the valid
(successfully decoded) images: cells are `cellWidth = 800` wide with
fixed 9:16 aspect; `imagesPerCollage = columns × rows`; `totalCollages =
Math.ceil(n / imagesPerCollage)` (written with the natural-number
ceiling-division formula, equal to `Math.ceil` for a positive divisor);
cell `(row, col)` of collage `i` shows image `i·slots + row·columns +
col` when it exists.  Canvas contexts and `toBlob` are assumed to
succeed, as elsewhere. -/
def generateCollage (validImages : List Img) (columns rows : ℕ) : List Collage :=
  if validImages.length = 0 then []
  else
    (List.range ((validImages.length + columns * rows - 1) / (columns * rows))).map
      fun collageIndex =>
        { index := collageIndex + 1
          -- cellWidth = 800 ; cellHeight = cellWidth / (9/16)
          canvasWidth := (800 : ℚ) * columns
          canvasHeight := ((800 : ℚ) / (9 / 16)) * rows
          cells := (List.range rows).flatMap fun row =>
            (List.range columns).map fun col =>
              validImages.get? (collageIndex * (columns * rows) + (row * columns + col)) }

/-- Row-major traversal of an `r × c` grid enumerates `0, …, r·c - 1`. -/
theorem flatMap_grid {α : Type} (f : ℕ → α) (r c : ℕ) :
    ((List.range r).flatMap fun row => (List.range c).map fun col => f (row * c + col)) =
      (List.range (r * c)).map f := by
  induction r with
  | zero => simp
  | succ n ih =>
    rw [List.range_succ, List.flatMap_append, ih, Nat.succ_mul, List.range_add,
      List.map_append]
    simp [List.map_map, Function.comp]

/-- C5: on `n` valid images and a `columns × rows` grid the composer
produces exactly `⌈n / (columns·rows)⌉` collages (zero when `n = 0`),
numbered from 1, and collage `i` (0-based) shows, in row-major cell
order, exactly the consecutive images `i·slots, …, i·slots + slots - 1`
(cells past the end of the list stay blank). -/
theorem generateCollage_spec (imgs : List Img) (c r : ℕ) (hc : 0 < c) (hr : 0 < r) :
    (generateCollage imgs c r).length = (imgs.length + c * r - 1) / (c * r) ∧
    ∀ i, i < (generateCollage imgs c r).length →
      ((generateCollage imgs c r)[i]?).map Collage.index = some (i + 1) ∧
      ((generateCollage imgs c r)[i]?).map Collage.cells =
        some ((List.range (c * r)).map fun k => imgs.get? (i * (c * r) + k)) := by
  have hcr : 0 < c * r := Nat.mul_pos hc hr
  by_cases hn : imgs.length = 0
  · have h0 : generateCollage imgs c r = [] := by simp [generateCollage, hn]
    constructor
    · rw [h0, hn, List.length_nil]
      exact (Nat.div_eq_of_lt (by omega)).symm
    · intro i hi
      rw [h0] at hi
      simp at hi
  · have hunfold : generateCollage imgs c r =
        (List.range ((imgs.length + c * r - 1) / (c * r))).map
          fun collageIndex =>
            { index := collageIndex + 1
              canvasWidth := (800 : ℚ) * c
              canvasHeight := ((800 : ℚ) / (9 / 16)) * r
              cells := (List.range r).flatMap fun row =>
                (List.range c).map fun col =>
                  imgs.get? (collageIndex * (c * r) + (row * c + col)) } := by
      simp [generateCollage, hn]
    constructor
    · rw [hunfold]
      simp
    · intro i hi
      have hi' : i < (imgs.length + c * r - 1) / (c * r) := by
        rw [hunfold] at hi
        simpa using hi
      rw [hunfold, List.getElem?_map, List.getElem?_range hi']
      constructor
      · rfl
      · show some _ = some _
        congr 1
        simp only [flatMap_grid]
        rw [flatMap_grid (fun k => imgs.get? (i * (c * r) + k)) r c, mul_comm r c]

/-- C5 witness: 10 images on a 3×3 grid yield exactly 2 collages; the
second has index 2 and shows 1 image with the remaining 8 cells blank. -/
theorem generateCollage_spec_witness :
    (generateCollage (List.replicate 10 ⟨1, 1⟩) 3 3).length = 2 ∧
    ((generateCollage (List.replicate 10 ⟨1, 1⟩) 3 3)[1]?).map Collage.index = some 2 ∧
    ((generateCollage (List.replicate 10 ⟨1, 1⟩) 3 3)[1]?).map
      (fun g => g.cells.countP fun o => o.isSome) = some 1 ∧
    ((generateCollage (List.replicate 10 ⟨1, 1⟩) 3 3)[1]?).map
      (fun g => g.cells.countP fun o => o.isNone) = some 8 := by
  have h := generateCollage_spec (List.replicate 10 (⟨1, 1⟩ : Img)) 3 3
    (by norm_num) (by norm_num)
  have hlen : (generateCollage (List.replicate 10 (⟨1, 1⟩ : Img)) 3 3).length = 2 := by
    rw [h.1, List.length_replicate]
  exact ⟨hlen, (h.2 1 (by rw [hlen]; norm_num)).1, by decide, by decide⟩

/-! ## Batch Orchestrator and item status lifecycle (resize page) -/

/-- The per-item status on the resize page (`"resizing"` is the page's
name for the processing state; the compress page's `"compressing"` plays
the same role). -/
inductive RStatus where
  | pending
  | resizing
  | completed
  | error
deriving DecidableEq, Repr

/-- Position of a status along the lifecycle `pending → processing →
{completed | error}`. -/
def rank : RStatus → ℕ
  | .pending => 0
  | .resizing => 1
  | .completed => 2
  | .error => 2

/-- One batch item: identity and current status. -/
structure RItem where
  id : ℕ
  status : RStatus
deriving DecidableEq, Repr

/-- The `setImageFiles(prev => prev.map(img => img.id === id ? {...img,
status} : img))` updater used by `resizeSingleImage`. -/
def setStatus (items : List RItem) (tid : ℕ) (s : RStatus) : List RItem :=
  items.map fun it => if it.id = tid then { it with status := s } else it

/-- Status of the item with identity `tid`, if present. -/
def statusOf (items : List RItem) (tid : ℕ) : Option RStatus :=
  (items.find? fun it => it.id == tid).map RItem.status

/-- One invocation of `resizeSingleImage` on the item with identity
`tid`: the status is first set to `resizing`; then, depending on whether
`resizeImage` resolves or throws (`outcome tid`), to `completed` or
`error`. -/
def resizeSingleRun (outcome : ℕ → Bool) (items : List RItem) (tid : ℕ) :
    List RItem :=
  if outcome tid then setStatus (setStatus items tid .resizing) tid .completed
  else setStatus (setStatus items tid .resizing) tid .error

/-- The batch runner `handleResizeAll`: snapshot the pending items, then run
`resizeSingleImage` on each in list order (sequentially, awaiting each
before the next). -/
def handleResizeAll (outcome : ℕ → Bool) (items : List RItem) : List RItem :=
  ((items.filter fun it => it.status == .pending).map RItem.id).foldl
    (resizeSingleRun outcome) items

/-- The archive step `handleDownloadAll`: the archive aggregates exactly the items whose
status is `completed` (each completed item carries its output URL). -/
def archiveEntries (items : List RItem) : List RItem :=
  items.filter fun it => it.status == .completed

/-- A single `resizeSingleImage` invocation acts pointwise: the targeted
identity gets its final status, everything else is untouched. -/
theorem resizeSingleRun_eq_map (outcome : ℕ → Bool) (items : List RItem) (tid : ℕ) :
    resizeSingleRun outcome items tid = items.map fun it =>
      if it.id = tid then
        { it with status := if outcome it.id then .completed else .error }
      else it := by
  by_cases ho : outcome tid
  · simp only [resizeSingleRun, if_pos ho, setStatus, List.map_map]
    apply List.map_congr_left
    intro it _
    by_cases hid : it.id = tid
    · simp [Function.comp, hid, ho]
    · simp [Function.comp, hid]
  · simp only [resizeSingleRun, if_neg ho, setStatus, List.map_map]
    apply List.map_congr_left
    intro it _
    by_cases hid : it.id = tid
    · simp [Function.comp, hid, ho]
    · simp [Function.comp, hid]

/-- Folding `resizeSingleImage` over a list of target identities sets
the final status of every listed identity and touches nothing else. -/
theorem foldl_resizeSingleRun (outcome : ℕ → Bool) (tids : List ℕ) :
    ∀ items : List RItem,
      tids.foldl (resizeSingleRun outcome) items = items.map fun it =>
        if it.id ∈ tids then
          { it with status := if outcome it.id then .completed else .error }
        else it := by
  induction tids with
  | nil =>
    intro items
    simp
  | cons t ts ih =>
    intro items
    rw [List.foldl_cons, ih, resizeSingleRun_eq_map, List.map_map]
    apply List.map_congr_left
    intro it _
    by_cases hid : it.id = t
    · by_cases hts : it.id ∈ ts
      · simp [Function.comp, hid, hts]
      · simp [Function.comp, hid, hts]
    · by_cases hts : it.id ∈ ts
      · simp [Function.comp, hid, hts]
      · simp [Function.comp, hid, hts]

/-- C6: in a batch run over pending items, each item ends `completed` or
`error` purely according to its own outcome — one item's failure never
prevents its siblings from completing — and the archive step aggregates
exactly the items that ended `completed`. -/
theorem handleResizeAll_resilient (outcome : ℕ → Bool) (items : List RItem)
    (hp : ∀ it ∈ items, it.status = RStatus.pending) :
    handleResizeAll outcome items = (items.map fun it =>
      { it with status := if outcome it.id then RStatus.completed else RStatus.error }) ∧
    (archiveEntries (handleResizeAll outcome items)).length =
      (items.filter fun it => outcome it.id).length := by
  have hfilter : (items.filter fun it => it.status == RStatus.pending) = items :=
    List.filter_eq_self.mpr fun it hmem => by simp [hp it hmem]
  have hmain : handleResizeAll outcome items = (items.map fun it =>
      { it with status := if outcome it.id then RStatus.completed else RStatus.error }) := by
    rw [handleResizeAll, hfilter, foldl_resizeSingleRun]
    apply List.map_congr_left
    intro it hmem
    have hin : it.id ∈ items.map RItem.id := List.mem_map_of_mem RItem.id hmem
    simp [hin]
  refine ⟨hmain, ?_⟩
  rw [hmain, archiveEntries, List.filter_map, List.length_map]
  congr 1
  apply List.filter_congr
  intro it _
  by_cases ho : outcome it.id
  · simp [Function.comp, ho]
  · simp [Function.comp, ho]

/-- C6 witness: 5 pending items where item 3 throws — items 1, 2, 4, 5
end `completed`, item 3 ends `error`, and the archive has exactly 4
entries. -/
theorem handleResizeAll_resilient_witness :
    handleResizeAll (fun i => i != 3)
        [⟨1, .pending⟩, ⟨2, .pending⟩, ⟨3, .pending⟩, ⟨4, .pending⟩, ⟨5, .pending⟩] =
      [⟨1, .completed⟩, ⟨2, .completed⟩, ⟨3, .error⟩, ⟨4, .completed⟩, ⟨5, .completed⟩] ∧
    (archiveEntries (handleResizeAll (fun i => i != 3)
        [⟨1, .pending⟩, ⟨2, .pending⟩, ⟨3, .pending⟩, ⟨4, .pending⟩,
          ⟨5, .pending⟩])).length = 4 := by
  have h := handleResizeAll_resilient (fun i => i != 3)
    [⟨1, .pending⟩, ⟨2, .pending⟩, ⟨3, .pending⟩, ⟨4, .pending⟩, ⟨5, .pending⟩]
    (by decide)
  constructor
  · rw [h.1]
    decide
  · rw [h.2]
    decide

/-- The status updates one `resizeSingleImage` invocation performs on
the item with identity `tid`, as (old, new) pairs: first to `resizing`,
then to the final status. -/
def runUpdates (outcome : ℕ → Bool) (items : List RItem) (tid : ℕ) :
    List (RStatus × RStatus) :=
  match statusOf items tid with
  | none => []
  | some old =>
    [(old, RStatus.resizing),
      (RStatus.resizing, if outcome tid then RStatus.completed else RStatus.error)]

/-- The page state at the granularity of the cooperative event loop:
the item list plus, for each in-flight `handleResizeAll` run, the not
yet processed remainder of its pending-items snapshot. -/
structure SysState where
  items : List RItem
  queues : List (List ℕ)
deriving DecidableEq, Repr

/-- The user- and scheduler-triggered operations of the resize page that
touch item status.  A per-item click is only possible while the item's
status is `pending` (the button is only rendered then); `startBatch`
snapshots the pending items as `handleResizeAll` does; `stepBatch`
resumes an in-flight batch run for its next queued item, which is how
the sequential `await` loop advances between suspension points. -/
inductive UIOp where
  | click (tid : ℕ)
  | startBatch
  | stepBatch (q : ℕ)
deriving DecidableEq, Repr

/-- One atomic operation: the next state and the status updates it
performs. -/
def applyOp (outcome : ℕ → Bool) (s : SysState) :
    UIOp → SysState × List (RStatus × RStatus)
  | .click tid =>
    if statusOf s.items tid = some RStatus.pending then
      (⟨resizeSingleRun outcome s.items tid, s.queues⟩, runUpdates outcome s.items tid)
    else (s, [])
  | .startBatch =>
    (⟨s.items,
        s.queues ++ [(s.items.filter fun it => it.status == RStatus.pending).map RItem.id]⟩,
      [])
  | .stepBatch q =>
    match s.queues.get? q with
    | some (tid :: rest) =>
      (⟨resizeSingleRun outcome s.items tid, s.queues.set q rest⟩,
        runUpdates outcome s.items tid)
    | _ => (s, [])

/-- Run a sequence of operations, collecting every status update in
order. -/
def runOps (outcome : ℕ → Bool) :
    SysState → List UIOp → SysState × List (RStatus × RStatus)
  | s, [] => (s, [])
  | s, op :: ops =>
    ((runOps outcome (applyOp outcome s op).1 ops).1,
      (applyOp outcome s op).2 ++ (runOps outcome (applyOp outcome s op).1 ops).2)

/-- All updates move status forward along `pending → processing →
{completed | error}`. -/
def forwardOnly (updates : List (RStatus × RStatus)) : Prop :=
  ∀ u ∈ updates, rank u.1 ≤ rank u.2

/-- C8 counterexample: from two pending items, the trace «start the
batch run; the run processes item 1; the user clicks item 2's own
resize button (still rendered, since item 2 is pending); the batch run
resumes its stale snapshot and re-processes item 2» performs a backward
status update — item 2 moves from `completed` back to `resizing`. -/
theorem statusBackward_counterexample :
    ¬ forwardOnly (runOps (fun _ => true)
      ⟨[⟨1, .pending⟩, ⟨2, .pending⟩], []⟩
      [.startBatch, .stepBatch 0, .click 2, .stepBatch 0]).2 ∧
    ((.completed : RStatus), (.resizing : RStatus)) ∈ (runOps (fun _ => true)
      ⟨[⟨1, .pending⟩, ⟨2, .pending⟩], []⟩
      [.startBatch, .stepBatch 0, .click 2, .stepBatch 0]).2 := by
  constructor
  · intro h
    exact absurd (h (.completed, .resizing) (by decide)) (by decide)
  · decide

/-- C8 amended: every status update performed by an invocation of
`resizeSingleImage`/`compressSingleImage` on an item that is currently
`pending` moves the item forward along `pending → processing →
{completed | error}` — the invocation performs exactly the updates
`pending → resizing` and `resizing → completed/error`.  All call sites
guard on `pending` (the per-item button is rendered only for pending
items and `handleResizeAll` snapshots the pending items), so statuses
only move forward as long as runs do not overlap; but a stale batch
snapshot overlapped with a per-item click can re-process a completed
item, moving it backward (see the counterexample trace). -/
theorem runUpdates_pending_forward (outcome : ℕ → Bool) (items : List RItem)
    (tid : ℕ) (hp : statusOf items tid = some RStatus.pending) :
    runUpdates outcome items tid =
      [(RStatus.pending, RStatus.resizing),
        (RStatus.resizing, if outcome tid then RStatus.completed else RStatus.error)] ∧
    forwardOnly (runUpdates outcome items tid) := by
  have h1 : runUpdates outcome items tid =
      [(RStatus.pending, RStatus.resizing),
        (RStatus.resizing, if outcome tid then RStatus.completed else RStatus.error)] := by
    simp [runUpdates, hp]
  refine ⟨h1, ?_⟩
  rw [h1]
  intro u hu
  rcases List.mem_cons.mp hu with h | hu2
  · rw [h]
    decide
  · rcases List.mem_cons.mp hu2 with h | hu3
    · rw [h]
      by_cases ho : outcome tid
      · simp [ho, rank]
      · simp [ho, rank]
    · simp at hu3

/-- C8 amended witness: on a single pending item the invocation's
updates are exactly the forward lifecycle. -/
theorem runUpdates_pending_forward_witness :
    forwardOnly (runUpdates (fun _ => false) [⟨1, .pending⟩] 1) :=
  (runUpdates_pending_forward (fun _ => false) [⟨1, .pending⟩] 1 (by decide)).2

/-! ## Conversion endpoint (`POST /api/convert`, both route versions) -/

/-- A parsed multipart request to the conversion endpoint: the `image`
field's bytes when present, the `format` field when present, and
whether the server-side re-encoding succeeds (the `try`/`catch`
boundary — any throw inside becomes a 500). -/
structure ConvRequest where
  image : Option (List ℕ)
  format : Option String
  encodeOk : Bool
deriving DecidableEq, Repr

/-- A response of the conversion endpoint: a JSON error payload with a
status, or the converted bytes with their two headers. -/
inductive ConvResponse where
  | json (status : ℕ) (error : String)
  | bytes (contentType : String) (contentDisposition : String)
deriving DecidableEq, Repr

/-- HTTP status of a response (a bytes response is a 200). -/
def respStatus : ConvResponse → ℕ
  | .json s _ => s
  | .bytes _ _ => 200

/-- Whether the response body is an error payload. -/
def isErrorPayload : ConvResponse → Bool
  | .json _ _ => true
  | .bytes _ _ => false

/-- The closed format set of the six-format route version. -/
def validFormats : List String := ["webp", "png", "jpg", "jpeg", "gif", "tiff"]

/-- The `mimeTypes` record of the six-format route version. -/
def mimeTypesFull : List (String × String) :=
  [("webp", "image/webp"), ("png", "image/png"), ("jpg", "image/jpeg"),
    ("jpeg", "image/jpeg"), ("gif", "image/gif"), ("tiff", "image/tiff")]

/-- The closed format set of the three-format route version. -/
def validFormats3 : List String := ["webp", "png", "jpg"]

/-- The `mimeTypes` record of the three-format route version. -/
def mimeTypes3 : List (String × String) :=
  [("webp", "image/webp"), ("png", "image/png"), ("jpg", "image/jpeg")]

/-- The six-format `POST` handler: missing image → 400; falsy or
unrecognized (case-insensitive) format → 400; processing throw → 500;
otherwise the converted bytes with `mimeTypes[normalizedFormat] ||
"image/png"` and `converted.<outputFormat>` where `jpeg` is rewritten
to `jpg`. -/
def POSTfull (req : ConvRequest) : ConvResponse :=
  if req.image = none then ConvResponse.json 400 "No se proporcionó ninguna imagen"
  else
    match req.format with
    | none => ConvResponse.json 400 "Formato no válido"
    | some f =>
      if f = "" then ConvResponse.json 400 "Formato no válido"
      else if jsToLower f ∈ validFormats then
        if req.encodeOk then
          ConvResponse.bytes ((mimeTypesFull.lookup (jsToLower f)).getD "image/png")
            ("attachment; filename=\"converted." ++
              (if jsToLower f = "jpeg" then "jpg" else jsToLower f) ++ "\"")
        else ConvResponse.json 500 "Error al procesar la imagen"
      else ConvResponse.json 400 "Formato no válido"

/-- The three-format `POST` handler (exact, case-sensitive membership,
no `jpeg` alias). -/
def POSTshort (req : ConvRequest) : ConvResponse :=
  if req.image = none then ConvResponse.json 400 "No se proporcionó ninguna imagen"
  else
    match req.format with
    | none => ConvResponse.json 400 "Formato no válido"
    | some f =>
      if f = "" then ConvResponse.json 400 "Formato no válido"
      else if f ∈ validFormats3 then
        if req.encodeOk then
          ConvResponse.bytes ((mimeTypes3.lookup f).getD "")
            ("attachment; filename=\"converted." ++ f ++ "\"")
        else ConvResponse.json 500 "Error al procesar la imagen"
      else ConvResponse.json 400 "Formato no válido"

/-- Modelled from the spec: the canonical MIME type of each format in
the closed set (the fixed mapping table of §6). -/
def specCanonicalMime (f : String) : String :=
  if f = "jpg" ∨ f = "jpeg" then "image/jpeg" else "image/" ++ f

/-- Modelled from the spec: the download extension, `jpeg` normalized
to `jpg`. -/
def specExt (f : String) : String :=
  if f = "jpeg" then "jpg" else f

/-- The six-format route's MIME table agrees with the spec's canonical
mapping on the closed set. -/
theorem lookup_mime_full (nf : String) (h : nf ∈ validFormats) :
    (mimeTypesFull.lookup nf).getD "image/png" = specCanonicalMime nf := by
  simp [validFormats] at h
  rcases h with h | h | h | h | h | h <;> subst h <;> decide

/-- The three-format route's MIME table agrees with the spec's
canonical mapping on its closed set. -/
theorem lookup_mime3 (f : String) (h : f ∈ validFormats3) :
    (mimeTypes3.lookup f).getD "" = specCanonicalMime f := by
  simp [validFormats3] at h
  rcases h with h | h | h <;> subst h <;> decide

/-- The three-format set is lowercase and contained in the six-format
set. -/
theorem validFormats3_sub (f : String) (h : f ∈ validFormats3) :
    jsToLower f = f ∧ f ∈ validFormats := by
  simp [validFormats3] at h
  rcases h with h | h | h <;> subst h <;> exact ⟨by decide, by decide⟩

/-- C7: for both route versions — a request with no image file is a 400
with an error payload; a request whose format (case-insensitively) lies
outside the closed set `{webp, png, jpg, jpeg, gif, tiff}`, or has no
format, is a 400 with an error payload; a validated request whose
processing throws is a 500; and every successful response carries the
requested format's canonical MIME type and the download filename
`converted.<ext>` with `jpeg` normalized to `jpg`. -/
theorem convertEndpoint_spec (req : ConvRequest) :
    (req.image = none →
      respStatus (POSTfull req) = 400 ∧ isErrorPayload (POSTfull req) = true ∧
      respStatus (POSTshort req) = 400 ∧ isErrorPayload (POSTshort req) = true) ∧
    (∀ f, req.format = some f → jsToLower f ∉ validFormats →
      respStatus (POSTfull req) = 400 ∧ isErrorPayload (POSTfull req) = true ∧
      respStatus (POSTshort req) = 400 ∧ isErrorPayload (POSTshort req) = true) ∧
    (req.format = none →
      respStatus (POSTfull req) = 400 ∧ isErrorPayload (POSTfull req) = true ∧
      respStatus (POSTshort req) = 400 ∧ isErrorPayload (POSTshort req) = true) ∧
    (∀ f, req.image ≠ none → req.format = some f → jsToLower f ∈ validFormats →
      req.encodeOk = false → respStatus (POSTfull req) = 500) ∧
    (∀ f, req.image ≠ none → req.format = some f → f ∈ validFormats3 →
      req.encodeOk = false → respStatus (POSTshort req) = 500) ∧
    (∀ f, req.image ≠ none → req.format = some f → jsToLower f ∈ validFormats →
      req.encodeOk = true →
      POSTfull req = ConvResponse.bytes (specCanonicalMime (jsToLower f))
        ("attachment; filename=\"converted." ++ specExt (jsToLower f) ++ "\"")) ∧
    (∀ f, req.image ≠ none → req.format = some f → f ∈ validFormats3 →
      req.encodeOk = true →
      POSTshort req = ConvResponse.bytes (specCanonicalMime f)
        ("attachment; filename=\"converted." ++ specExt f ++ "\"")) := by
  obtain ⟨img, fmt, ok⟩ := req
  refine ⟨?_, ?_, ?_, ?_, ?_, ?_, ?_⟩
  · intro h
    simp only at h
    subst h
    exact ⟨by simp [POSTfull, respStatus], by simp [POSTfull, isErrorPayload],
      by simp [POSTshort, respStatus], by simp [POSTshort, isErrorPayload]⟩
  · intro f hf hnin
    simp only at hf
    subst hf
    have hshort : f ∉ validFormats3 := fun hmem => by
      obtain ⟨hl, hv⟩ := validFormats3_sub f hmem
      rw [hl] at hnin
      exact hnin hv
    cases img with
    | none =>
      exact ⟨by simp [POSTfull, respStatus], by simp [POSTfull, isErrorPayload],
        by simp [POSTshort, respStatus], by simp [POSTshort, isErrorPayload]⟩
    | some b =>
      by_cases hempty : f = ""
      · subst hempty
        exact ⟨by simp [POSTfull, respStatus], by simp [POSTfull, isErrorPayload],
          by simp [POSTshort, respStatus], by simp [POSTshort, isErrorPayload]⟩
      · exact ⟨by simp [POSTfull, respStatus, hempty, hnin],
          by simp [POSTfull, isErrorPayload, hempty, hnin],
          by simp [POSTshort, respStatus, hempty, hshort],
          by simp [POSTshort, isErrorPayload, hempty, hshort]⟩
  · intro h
    simp only at h
    subst h
    cases img with
    | none =>
      exact ⟨by simp [POSTfull, respStatus], by simp [POSTfull, isErrorPayload],
        by simp [POSTshort, respStatus], by simp [POSTshort, isErrorPayload]⟩
    | some b =>
      exact ⟨by simp [POSTfull, respStatus], by simp [POSTfull, isErrorPayload],
        by simp [POSTshort, respStatus], by simp [POSTshort, isErrorPayload]⟩
  · intro f himg hf hmem hok
    simp only at hf himg hok
    subst hf
    subst hok
    cases img with
    | none => exact absurd rfl himg
    | some b =>
      have hempty : f ≠ "" := by
        intro h
        subst h
        exact absurd hmem (by decide)
      simp [POSTfull, respStatus, hempty, hmem]
  · intro f himg hf hmem hok
    simp only at hf himg hok
    subst hf
    subst hok
    cases img with
    | none => exact absurd rfl himg
    | some b =>
      have hempty : f ≠ "" := by
        intro h
        subst h
        exact absurd hmem (by decide)
      simp [POSTshort, respStatus, hempty, hmem]
  · intro f himg hf hmem hok
    simp only at hf himg hok
    subst hf
    subst hok
    cases img with
    | none => exact absurd rfl himg
    | some b =>
      have hempty : f ≠ "" := by
        intro h
        subst h
        exact absurd hmem (by decide)
      simp [POSTfull, hempty, hmem, lookup_mime_full (jsToLower f) hmem, specExt]
  · intro f himg hf hmem hok
    simp only at hf himg hok
    subst hf
    subst hok
    cases img with
    | none => exact absurd rfl himg
    | some b =>
      have hempty : f ≠ "" := by
        intro h
        subst h
        exact absurd hmem (by decide)
      have hjpeg : f ≠ "jpeg" := by
        intro h
        subst h
        exact absurd hmem (by decide)
      simp [POSTshort, hempty, hmem, lookup_mime3 f hmem, specExt, hjpeg]

/-- C7 witness: a request without image is a 400 on both routes; format
`JPEG` succeeds on the six-format route as `image/jpeg` with filename
`converted.jpg`; a validated request whose processing throws is a 500;
format `jpg` succeeds on the three-format route. -/
theorem convertEndpoint_spec_witness :
    respStatus (POSTfull ⟨none, some "webp", true⟩) = 400 ∧
    respStatus (POSTshort ⟨none, some "webp", true⟩) = 400 ∧
    respStatus (POSTfull ⟨some [1], some "bmp", true⟩) = 400 ∧
    respStatus (POSTfull ⟨some [1], some "webp", false⟩) = 500 ∧
    POSTfull ⟨some [1], some "JPEG", true⟩ =
      ConvResponse.bytes "image/jpeg" "attachment; filename=\"converted.jpg\"" ∧
    POSTshort ⟨some [1], some "jpg", true⟩ =
      ConvResponse.bytes "image/jpeg" "attachment; filename=\"converted.jpg\"" := by
  refine ⟨(convertEndpoint_spec ⟨none, some "webp", true⟩).1 rfl |>.1,
    (convertEndpoint_spec ⟨none, some "webp", true⟩).1 rfl |>.2.2.1,
    ((convertEndpoint_spec ⟨some [1], some "bmp", true⟩).2.1 "bmp" rfl
      (by decide)).1, ?_, ?_, ?_⟩
  · exact (convertEndpoint_spec ⟨some [1], some "webp", false⟩).2.2.2.1 "webp"
      (by simp) rfl (by decide) rfl
  · have h := (convertEndpoint_spec ⟨some [1], some "JPEG", true⟩).2.2.2.2.2.1 "JPEG"
      (by simp) rfl (by decide) rfl
    rw [h]
    decide
  · have h := (convertEndpoint_spec ⟨some [1], some "jpg", true⟩).2.2.2.2.2.2 "jpg"
      (by simp) rfl (by decide) rfl
    rw [h]
    decide
